import Mathlib

/-
Shallow embedding of the quote application from the ng2-unit-testing blog
repository: RandomNumberService, QuoteService (local and remote variants)
and QuoteComponent, together with proofs of the documented properties.
-/

namespace NgQuote

/-- Quote shape used by the component and both quote services
(quote.service.ts, type IQuote). -/
structure IQuote where
  text : String
  attribution : String
deriving Repr, DecidableEq

/-- Wire shape of one record returned by the remote endpoint
(quote.service.ts, type IAPIRecord). -/
structure IAPIRecord where
  content : String
  title : String
deriving Repr, DecidableEq

/-- JavaScript array indexing a[i]: the element when i is in range,
undefined (modelled as none) otherwise. -/
def jsIndex {α : Type} (l : List α) (i : Int) : Option α :=
  if h : 0 ≤ i ∧ i.toNat < l.length then some (l.get ⟨i.toNat, h.2⟩) else none

namespace RandomNumberService

/-- RandomNumberService.pick from random-number.service.ts:
Math.floor(Math.random() * (max - min) + min).  The value produced by
Math.random() is passed explicitly as r, a rational standing for the
floating-point number in [0, 1). -/
def pick (r : ℚ) (min max : Int) : Int :=
  Int.floor (r * ((max : ℚ) - (min : ℚ)) + (min : ℚ))

end RandomNumberService

/-- Computation tree of a client of RandomNumberService: each pick node
records the min and max arguments passed to the service and continues with
the integer the service returns. -/
inductive RndM (α : Type) where
  | pure : α → RndM α
  | pick : Int → Int → (Int → RndM α) → RndM α

/-- Run the computation against a concrete implementation of pick. -/
def RndM.run {α : Type} (stub : Int → Int → Int) : RndM α → α
  | RndM.pure a => a
  | RndM.pick lo hi k => RndM.run stub (k (stub lo hi))

/-- Arguments of the pick calls the computation makes, in order, when run
against stub. -/
def RndM.callTrace {α : Type} (stub : Int → Int → Int) : RndM α → List (Int × Int)
  | RndM.pure _ => []
  | RndM.pick lo hi k => (lo, hi) :: RndM.callTrace stub (k (stub lo hi))

namespace QuoteService

/-- QuoteService.getQuote, local variant (quote.service.ts):
index = this.randomNumberService.pick(0, this.allQuotes.length);
return this.allQuotes[index]. -/
def getQuote (allQuotes : List IQuote) : RndM (Option IQuote) :=
  RndM.pick 0 (allQuotes.length : Int) (fun index => RndM.pure (jsIndex allQuotes index))

end QuoteService

/-- URLSearchParams: an ordered list of key and value pairs.  set replaces
the value of an existing key and appends the pair otherwise. -/
structure URLSearchParams where
  params : List (String × String)

/-- URLSearchParams.set(k, v). -/
def URLSearchParams.set (s : URLSearchParams) (k v : String) : URLSearchParams :=
  if (s.params.map Prod.fst).contains k then
    ⟨s.params.map (fun p => if p.1 = k then (k, v) else p)⟩
  else
    ⟨s.params ++ [(k, v)]⟩

/-- HTTP request methods used by the Http service. -/
inductive RequestMethod where
  | get
  | post
deriving DecidableEq, Repr

/-- Outgoing HTTP request as observed by the backend: the fields the mock
backend tests inspect. -/
structure Request where
  method : RequestMethod
  url : String
  search : List (String × String)
  body : Option String
deriving DecidableEq, Repr

/-- Full request URL with the serialized query string, as the mock
connection exposes it. -/
def Request.fullUrl (req : Request) : String :=
  if req.search.isEmpty then req.url
  else req.url ++ "?" ++ String.intercalate "&" (req.search.map (fun p => p.1 ++ "=" ++ p.2))

/-- HTTP response.  The claims concern bodies that are valid JSON arrays of
IAPIRecord, so the body is carried in parsed form. -/
structure Response where
  bodyRecords : List IAPIRecord

/-- Response.json(): the parsed body. -/
def Response.json (resp : Response) : List IAPIRecord := resp.bodyRecords

/-- Runtime error raised inside an observable pipeline; typeError stands for
property access on undefined. -/
inductive JsError where
  | typeError
deriving DecidableEq, Repr

/-- Event delivered to the subscriber of an observable: a value or a
failure. -/
inductive ObsEvent (α : Type) where
  | next : α → ObsEvent α
  | error : JsError → ObsEvent α
deriving DecidableEq, Repr

/-- Rx map operator acting on the event list of an observable: it applies f
to each value; if f throws, the subscriber receives that single failure and
the subscription ends. -/
def obsMap {α β : Type} (f : α → Except JsError β) : List (ObsEvent α) → List (ObsEvent β)
  | [] => []
  | ObsEvent.error e :: _ => [ObsEvent.error e]
  | ObsEvent.next a :: rest =>
    match f a with
    | Except.ok b => ObsEvent.next b :: obsMap f rest
    | Except.error e => [ObsEvent.error e]

/-- Computation tree of a client of the Http service: a get node records the
url and search arguments passed to http.get and continues with the
observable that call returns. -/
inductive HttpM (α : Type) where
  | pure : α → HttpM α
  | get : String → List (String × String) → (List (ObsEvent Response) → HttpM α) → HttpM α

/-- Request built by http.get(url, { search }): method GET, no body. -/
def mkRequest (url : String) (search : List (String × String)) : Request :=
  { method := RequestMethod.get, url := url, search := search, body := none }

/-- Run the computation against a backend that answers every request.  The
observable returned by http.get delivers the backend response once and then
completes. -/
def HttpM.run {α : Type} (backend : Request → Response) : HttpM α → α
  | HttpM.pure a => a
  | HttpM.get url search k =>
    HttpM.run backend (k [ObsEvent.next (backend (mkRequest url search))])

/-- Requests issued by the computation, in order, when run against
backend. -/
def HttpM.requestTrace {α : Type} (backend : Request → Response) : HttpM α → List Request
  | HttpM.pure _ => []
  | HttpM.get url search k =>
    mkRequest url search ::
      HttpM.requestTrace backend (k [ObsEvent.next (backend (mkRequest url search))])

namespace QuoteService

/-- URL constant of the remote QuoteService (quote.service.ts). -/
def URL : String := "http://quotesondesign.com/wp-json/posts"

/-- QuoteService.getQuote, remote variant (quote.service.ts): builds the
search params with set, issues this.http.get(QuoteService.URL, { search }),
then maps the response in three stages: response.json(), records[0]
(undefined when the array is empty), and the record-to-quote mapping whose
field access throws a TypeError on undefined. -/
def getQuoteRemote : HttpM (List (ObsEvent IQuote)) :=
  let search := URLSearchParams.set ⟨[]⟩ "filter[orderby]" "rand"
  HttpM.get URL search.params (fun respObs =>
    HttpM.pure
      (obsMap
        (fun record =>
          match record with
          | none => Except.error JsError.typeError
          | some record => Except.ok { text := record.content, attribution := record.title })
        (obsMap (fun records => Except.ok (jsIndex records 0))
          (obsMap (fun response => Except.ok response.json) respObs))))

end QuoteService

/-- Names of the two QuoteService methods the component can invoke
(quote.component.ts). -/
inductive SvcCall where
  | randomQuote
  | remoteQuote
deriving DecidableEq, Repr

/-- Interface of the injected QuoteService as the component consumes it. -/
structure QuoteServiceIface where
  getRandomQuote : IQuote
  getRemoteQuote : List (ObsEvent IQuote)

/-- Presentation fields of QuoteComponent; none models a field that has not
been assigned yet. -/
structure QuoteComponentState where
  randomQuote : Option IQuote
  remoteText : Option (List (ObsEvent String))
  remoteAttribution : Option (List (ObsEvent String))

namespace QuoteComponent

/-- QuoteComponent.getRandomQuote (quote.component.ts):
this.randomQuote = this.quoteService.getRandomQuote().  Returns the updated
state together with the service calls made. -/
def getRandomQuote (svc : QuoteServiceIface) (s : QuoteComponentState) :
    QuoteComponentState × List SvcCall :=
  ({ s with randomQuote := some svc.getRandomQuote }, [SvcCall.randomQuote])

/-- QuoteComponent.getRemoteQuote (quote.component.ts):
quote$ = this.quoteService.getRemoteQuote();
this.remoteText$ = quote$.map(quote => quote.text);
this.remoteAttribution$ = quote$.map(quote => quote.attribution). -/
def getRemoteQuote (svc : QuoteServiceIface) (s : QuoteComponentState) :
    QuoteComponentState × List SvcCall :=
  let quoteObs := svc.getRemoteQuote
  ({ s with
      remoteText := some (obsMap (fun quote => Except.ok quote.text) quoteObs),
      remoteAttribution := some (obsMap (fun quote => Except.ok quote.attribution) quoteObs) },
   [SvcCall.remoteQuote])

/-- QuoteComponent constructor (quote.component.ts):
this.getRandomQuote(); this.getRemoteQuote(). -/
def construct (svc : QuoteServiceIface) : QuoteComponentState × List SvcCall :=
  let s0 : QuoteComponentState :=
    { randomQuote := none, remoteText := none, remoteAttribution := none }
  let step1 := getRandomQuote svc s0
  let step2 := getRemoteQuote svc step1.1
  (step2.1, step1.2 ++ step2.2)

end QuoteComponent

end NgQuote

namespace NgQuote

/-- Helper: running the local getQuote against a stub evaluates the one pick
call and indexes the quote list with its result. -/
theorem getQuote_run_eq (quotes : List IQuote) (stub : Int → Int → Int) :
    (QuoteService.getQuote quotes).run stub = jsIndex quotes (stub 0 (quotes.length : Int)) :=
  rfl

/-- Helper: with a random value in [0, 1) and lo < hi, pick lands in
the half-open interval [lo, hi). -/
theorem pick_bounds (r : ℚ) (lo hi : Int) (hr0 : 0 ≤ r) (hr1 : r < 1) (h : lo < hi) :
    lo ≤ RandomNumberService.pick r lo hi ∧ RandomNumberService.pick r lo hi < hi := by
  unfold RandomNumberService.pick
  have hq : (lo : ℚ) < (hi : ℚ) := by exact_mod_cast h
  constructor
  · rw [Int.le_floor]
    nlinarith
  · rw [Int.floor_lt]
    nlinarith

/-- C1: for all integers min < max and every value r of the uniform random
source with 0 ≤ r < 1, pick(min, max) = floor(r * (max - min) + min) is an
integer satisfying min ≤ pick(min, max) < max. -/
theorem pick_in_range (r : ℚ) (min max : Int) (hr0 : 0 ≤ r) (hr1 : r < 1)
    (h : min < max) :
    min ≤ RandomNumberService.pick r min max ∧ RandomNumberService.pick r min max < max :=
  pick_bounds r min max hr0 hr1 h

/-- Witness for C1 at r = 0, min = 0, max = 1. -/
theorem pick_in_range_witness :
    (0 : ℚ) ≤ 0 ∧ (0 : ℚ) < 1 ∧ (0 : Int) < 1 ∧
      (0 ≤ RandomNumberService.pick 0 0 1 ∧ RandomNumberService.pick 0 0 1 < 1) :=
  ⟨le_refl 0, by norm_num, by norm_num,
    pick_in_range 0 0 1 (le_refl 0) (by norm_num) (by norm_num)⟩

/-- C2: for a non-empty quote list of length N and a random value in [0, 1),
the index the local getQuote computes via pick(0, N) satisfies
0 ≤ index < N, so the list access quotes[index] is in bounds and the
out-of-range (undefined) branch of the indexing operation is unreachable. -/
theorem getQuote_local_index_in_bounds (r : ℚ) (quotes : List IQuote)
    (hr0 : 0 ≤ r) (hr1 : r < 1) (hne : quotes ≠ []) :
    0 ≤ RandomNumberService.pick r 0 (quotes.length : Int) ∧
      RandomNumberService.pick r 0 (quotes.length : Int) < (quotes.length : Int) ∧
      ((QuoteService.getQuote quotes).run (RandomNumberService.pick r)).isSome := by
  have hlen : (0 : Int) < (quotes.length : Int) := by
    exact_mod_cast List.length_pos.mpr hne
  obtain ⟨h1, h2⟩ := pick_bounds r 0 (quotes.length : Int) hr0 hr1 hlen
  refine ⟨h1, h2, ?_⟩
  rw [getQuote_run_eq]
  unfold jsIndex
  rw [dif_pos ⟨h1, by omega⟩]
  rfl

/-- Witness for C2 at r = 0 and a one-element quote list. -/
theorem getQuote_local_index_in_bounds_witness :
    (0 : ℚ) ≤ 0 ∧ (0 : ℚ) < 1 ∧
      ([({ text := "q", attribution := "a" } : IQuote)] ≠ []) ∧
      (0 ≤ RandomNumberService.pick 0 0
          (([({ text := "q", attribution := "a" } : IQuote)].length : Int)) ∧
        RandomNumberService.pick 0 0
            (([({ text := "q", attribution := "a" } : IQuote)].length : Int)) <
          (([({ text := "q", attribution := "a" } : IQuote)].length : Int)) ∧
        ((QuoteService.getQuote [{ text := "q", attribution := "a" }]).run
            (RandomNumberService.pick 0)).isSome) :=
  ⟨le_refl 0, by norm_num, by simp,
    getQuote_local_index_in_bounds 0 [{ text := "q", attribution := "a" }]
      (le_refl 0) (by norm_num) (by simp)⟩

/-- C3: for a non-empty quote list and a random value in [0, 1), the local
getQuote returns a member of the list; and when the random source is stubbed
to return 0 the result is the first element of the list. -/
theorem getQuote_local_member (r : ℚ) (quotes : List IQuote)
    (hr0 : 0 ≤ r) (hr1 : r < 1) (hne : quotes ≠ []) :
    (∃ q, (QuoteService.getQuote quotes).run (RandomNumberService.pick r) = some q ∧
        q ∈ quotes) ∧
      (QuoteService.getQuote quotes).run (fun _ _ => 0) = quotes.head? := by
  constructor
  · have hlen : (0 : Int) < (quotes.length : Int) := by
      exact_mod_cast List.length_pos.mpr hne
    obtain ⟨h1, h2⟩ := pick_bounds r 0 (quotes.length : Int) hr0 hr1 hlen
    rw [getQuote_run_eq]
    unfold jsIndex
    rw [dif_pos ⟨h1, by omega⟩]
    exact ⟨_, rfl, List.get_mem quotes _ _⟩
  · rw [getQuote_run_eq]
    cases quotes with
    | nil => exact absurd rfl hne
    | cons a t => simp [jsIndex]

/-- Witness for C3 at r = 0 and a two-element quote list. -/
theorem getQuote_local_member_witness :
    (0 : ℚ) ≤ 0 ∧ (0 : ℚ) < 1 ∧
      ([({ text := "Talk is cheap. Show me the code.",
            attribution := "Linus Torvalds" } : IQuote),
          { text := "q", attribution := "a" }] ≠ []) ∧
      ((∃ q, (QuoteService.getQuote
              [{ text := "Talk is cheap. Show me the code.",
                 attribution := "Linus Torvalds" },
               { text := "q", attribution := "a" }]).run (RandomNumberService.pick 0) =
            some q ∧
          q ∈ [({ text := "Talk is cheap. Show me the code.",
                  attribution := "Linus Torvalds" } : IQuote),
               { text := "q", attribution := "a" }]) ∧
        (QuoteService.getQuote
            [{ text := "Talk is cheap. Show me the code.",
               attribution := "Linus Torvalds" },
             { text := "q", attribution := "a" }]).run (fun _ _ => 0) =
          [({ text := "Talk is cheap. Show me the code.",
              attribution := "Linus Torvalds" } : IQuote),
           { text := "q", attribution := "a" }].head?) :=
  ⟨le_refl 0, by norm_num, by simp,
    getQuote_local_member 0
      [{ text := "Talk is cheap. Show me the code.", attribution := "Linus Torvalds" },
       { text := "q", attribution := "a" }]
      (le_refl 0) (by norm_num) (by simp)⟩

/-- C4: a single call to the local getQuote makes exactly one call to the
random source, with arguments min = 0 and max = N where N is the length of
the quote list; in particular a one-element list produces exactly the call
pick(0, 1). -/
theorem getQuote_local_call_trace (stub : Int → Int → Int) (quotes : List IQuote)
    (q : IQuote) :
    (QuoteService.getQuote quotes).callTrace stub = [(0, (quotes.length : Int))] ∧
      (QuoteService.getQuote [q]).callTrace stub = [(0, 1)] :=
  ⟨rfl, rfl⟩

/-- C10: on an empty quote list, pick(0, 0) evaluates to 0 for every random
value r, the out-of-range access quotes[0] yields undefined, and the local
getQuote returns the absent quote (none) instead of failing. -/
theorem getQuote_local_empty_list (r : ℚ) :
    RandomNumberService.pick r 0 0 = 0 ∧
      (QuoteService.getQuote []).run (RandomNumberService.pick r) = none := by
  have h0 : RandomNumberService.pick r 0 0 = 0 := by
    unfold RandomNumberService.pick
    norm_num
  refine ⟨h0, ?_⟩
  rw [getQuote_run_eq]
  have h0' : RandomNumberService.pick r 0 ((([] : List IQuote)).length : Int) = 0 := by
    simpa using h0
  rw [h0']
  simp [jsIndex]

/-- Helper: running the remote getQuote against a backend applies the three
map stages to the one-response observable of the single GET request. -/
theorem getQuoteRemote_run_eq (backend : Request → Response) :
    QuoteService.getQuoteRemote.run backend =
      obsMap
        (fun record =>
          match record with
          | none => Except.error JsError.typeError
          | some record => Except.ok { text := record.content, attribution := record.title })
        (obsMap (fun records => Except.ok (jsIndex records 0))
          (obsMap (fun response => Except.ok response.json)
            [ObsEvent.next
              (backend (mkRequest QuoteService.URL [("filter[orderby]", "rand")]))])) :=
  rfl

/-- C5: every run of the remote getQuote issues exactly one HTTP request,
with method GET, no body, url http://quotesondesign.com/wp-json/posts and
the single query parameter filter[orderby]=rand; its serialized URL is
http://quotesondesign.com/wp-json/posts?filter[orderby]=rand. -/
theorem getQuoteRemote_request_spec (backend : Request → Response) :
    QuoteService.getQuoteRemote.requestTrace backend =
        [{ method := RequestMethod.get,
           url := "http://quotesondesign.com/wp-json/posts",
           search := [("filter[orderby]", "rand")],
           body := none }] ∧
      (mkRequest QuoteService.URL [("filter[orderby]", "rand")]).fullUrl =
        "http://quotesondesign.com/wp-json/posts?filter[orderby]=rand" :=
  ⟨rfl, rfl⟩

/-- C6: when the backend answers with a non-empty array of records, the
remote getQuote delivers one quote built from the first record, content
mapped to text and title mapped to attribution. -/
theorem getQuoteRemote_maps_first_record (r0 : IAPIRecord) (rest : List IAPIRecord)
    (backend : Request → Response)
    (hb : ∀ req, (backend req).bodyRecords = r0 :: rest) :
    QuoteService.getQuoteRemote.run backend =
      [ObsEvent.next { text := r0.content, attribution := r0.title }] := by
  rw [getQuoteRemote_run_eq]
  simp [obsMap, Response.json, hb, jsIndex]

/-- Witness for C6 at the stubbed response body of the blog post. -/
theorem getQuoteRemote_maps_first_record_witness :
    (∀ req : Request,
        ((fun _ : Request =>
            Response.mk [{ content := "Testing is a good thing", title := "Me" }]) req).bodyRecords =
          { content := "Testing is a good thing", title := "Me" } :: ([] : List IAPIRecord)) ∧
      QuoteService.getQuoteRemote.run
          (fun _ => Response.mk [{ content := "Testing is a good thing", title := "Me" }]) =
        [ObsEvent.next { text := "Testing is a good thing", attribution := "Me" }] :=
  ⟨fun _ => rfl,
    getQuoteRemote_maps_first_record
      { content := "Testing is a good thing", title := "Me" } []
      (fun _ => Response.mk [{ content := "Testing is a good thing", title := "Me" }])
      (fun _ => rfl)⟩

/-- C7: when the backend answers with an empty JSON array, the remote
getQuote delivers a failure to the subscriber (records[0] is undefined and
the field access throws) rather than a successful undefined quote. -/
theorem getQuoteRemote_empty_body_fails (backend : Request → Response)
    (hb : ∀ req, (backend req).bodyRecords = []) :
    QuoteService.getQuoteRemote.run backend = [ObsEvent.error JsError.typeError] := by
  rw [getQuoteRemote_run_eq]
  simp [obsMap, Response.json, hb, jsIndex]

/-- Witness for C7 at a backend always answering with the empty array. -/
theorem getQuoteRemote_empty_body_fails_witness :
    (∀ req : Request, ((fun _ : Request => Response.mk []) req).bodyRecords = []) ∧
      QuoteService.getQuoteRemote.run (fun _ => Response.mk []) =
        [ObsEvent.error JsError.typeError] :=
  ⟨fun _ => rfl, getQuoteRemote_empty_body_fails (fun _ => Response.mk []) (fun _ => rfl)⟩

/-- C8: whatever body the backend answers with, the remote getQuote delivers
exactly one outcome to its subscriber: a single value event or a single
failure event, never both and never more than one. -/
theorem getQuoteRemote_single_outcome (backend : Request → Response) :
    (∃ q, QuoteService.getQuoteRemote.run backend = [ObsEvent.next q]) ∨
      (∃ e, QuoteService.getQuoteRemote.run backend = [ObsEvent.error e]) := by
  rw [getQuoteRemote_run_eq]
  rcases hb :
      (backend (mkRequest QuoteService.URL [("filter[orderby]", "rand")])).bodyRecords with
    _ | ⟨a, t⟩
  · exact Or.inr ⟨JsError.typeError, by simp [obsMap, Response.json, hb, jsIndex]⟩
  · exact Or.inl ⟨{ text := a.content, attribution := a.title },
      by simp [obsMap, Response.json, hb, jsIndex]⟩

/-- C9: the QuoteComponent constructor invokes each quote-fetching service
method exactly once (getRandomQuote then getRemoteQuote and nothing else),
each user-triggered action invokes its service method exactly once more, and
the results are bound to the presentation fields randomQuote, remoteText and
remoteAttribution. -/
theorem quoteComponent_call_pattern (svc : QuoteServiceIface) (s : QuoteComponentState) :
    (QuoteComponent.construct svc).2 = [SvcCall.randomQuote, SvcCall.remoteQuote] ∧
      (QuoteComponent.getRandomQuote svc s).2 = [SvcCall.randomQuote] ∧
      (QuoteComponent.getRemoteQuote svc s).2 = [SvcCall.remoteQuote] ∧
      (QuoteComponent.construct svc).1.randomQuote = some svc.getRandomQuote ∧
      (QuoteComponent.construct svc).1.remoteText =
        some (obsMap (fun quote => Except.ok quote.text) svc.getRemoteQuote) ∧
      (QuoteComponent.construct svc).1.remoteAttribution =
        some (obsMap (fun quote => Except.ok quote.attribution) svc.getRemoteQuote) :=
  ⟨rfl, rfl, rfl, rfl, rfl, rfl⟩

end NgQuote
